import Mathlib

/-!
Shallow embedding of the chessy chess engine core (src/core/ChessBoard.ts,
src/core/MoveGenerator.ts, src/core/ChessEngine.ts, src/ai/ChessAI.ts) and
proofs about the claims of the specification.

Modelling conventions:
* A TS square string such as 'e4' is modelled as a `Coord` with 0-based
  `file` (a=0 .. h=7) and `rank` ('1'=0 .. '8'=7) indices, matching the
  numbers produced by `ChessBoard.squareToCoordinates`.
* The TS `Position` dictionary (all 64 keys present, values piece-or-null)
  is modelled as a total function `Coord → Option Piece`; dictionary
  iteration order (insertion order: file-major a1,a2,…,h8, fixed by
  `createInitialPosition` and preserved by every spread copy) is modelled
  by the fixed list `allSquares`.
* JS numbers that only ever hold small non-negative integers (clocks,
  move numbers) are `Nat`; coordinate arithmetic that can go negative is
  done in `Int` exactly where the source does it.
* The one mutable array that is observably shared between the engine and
  the snapshots returned by `getGameState` — the `moveHistory` array of a
  `GameState` — is modelled by an explicit reference (`moveHistoryRef`)
  into a store (`heap`) owned by the `EngineState`, so that the aliasing
  behaviour of `this.gameState.moveHistory.push(move)` is captured.
  All other objects are freshly copied by the source before mutation.
-/

set_option maxRecDepth 8000
set_option maxHeartbeats 4000000

namespace Chessy

inductive PieceColor where
  | white
  | black
deriving DecidableEq

inductive PieceType where
  | pawn
  | rook
  | knight
  | bishop
  | queen
  | king
deriving DecidableEq

structure Piece where
  type : PieceType
  color : PieceColor
deriving DecidableEq

/-- A board coordinate: `file` 0–7 for files a–h, `rank` 0–7 for ranks 1–8. -/
structure Coord where
  file : Nat
  rank : Nat
deriving DecidableEq

inductive CastleSide where
  | kingside
  | queenside
deriving DecidableEq

/-- The `Move` interface from src/types/chess.ts.  `from` is a Lean keyword,
so the `from`/`to` fields are called `fromSq`/`toSq`.  Optional TS fields
are `Option`s; `enPassant?: boolean` is `Option Bool` (the source tests it
for truthiness). -/
structure Move where
  fromSq : Coord
  toSq : Coord
  piece : Piece
  captured : Option Piece := none
  promotion : Option PieceType := none
  castling : Option CastleSide := none
  enPassant : Option Bool := none
deriving DecidableEq

structure CastlingRights where
  whiteKingside : Bool
  whiteQueenside : Bool
  blackKingside : Bool
  blackQueenside : Bool
deriving DecidableEq

/-- The TS `Position` dictionary: every square maps to a piece or null. -/
abbrev Position := Coord → Option Piece

/-- The `GameState` interface.  `moveHistory: Move[]` is a mutable JS array;
the state holds a reference (`moveHistoryRef`) into the engine's heap. -/
structure GameState where
  position : Position
  activeColor : PieceColor
  castlingRights : CastlingRights
  enPassantTarget : Option Coord
  halfmoveClock : Nat
  fullmoveNumber : Nat
  moveHistoryRef : Nat

inductive Winner where
  | whiteWins
  | blackWins
  | draw
deriving DecidableEq

inductive GameReason where
  | checkmate
  | stalemate
  | insufficientMaterial
  | fiftyMove
  | threefoldRepetition
  | resignation
  | timeout
deriving DecidableEq

structure GameResult where
  winner : Winner
  reason : GameReason
deriving DecidableEq

namespace ChessBoard

/-- `ChessBoard.coordinatesToSquare(file, rank)`: null outside the board. -/
def coordinatesToSquare (file rank : Int) : Option Coord :=
  if file < 0 || file > 7 || rank < 0 || rank > 7 then none
  else some ⟨file.toNat, rank.toNat⟩

/-- The back-rank piece array `['rook','knight','bishop','queen','king','bishop','knight','rook']`. -/
def backRankTypes : List PieceType :=
  [.rook, .knight, .bishop, .queen, .king, .bishop, .knight, .rook]

/-- `ChessBoard.createInitialPosition()`.  (The `getD … .rook` default is
never reached: files are 0–7.) -/
def createInitialPosition : Position := fun c =>
  if c.file ≤ 7 then
    if c.rank = 0 then some ⟨backRankTypes.getD c.file .rook, .white⟩
    else if c.rank = 1 then some ⟨.pawn, .white⟩
    else if c.rank = 6 then some ⟨.pawn, .black⟩
    else if c.rank = 7 then some ⟨backRankTypes.getD c.file .rook, .black⟩
    else none
  else none

/-- All 64 squares in the dictionary iteration order of the source
(`FILES` outer loop, `RANKS` inner loop: a1, a2, …, a8, b1, …, h8). -/
def allSquares : List Coord :=
  (List.range 8).flatMap fun f => (List.range 8).map fun r => ⟨f, r⟩

end ChessBoard

/-- Point update of a position dictionary (`newPosition[sq] = v`). -/
def setSquare (p : Position) (c : Coord) (v : Option Piece) : Position :=
  fun x => if x = c then v else p x

namespace MoveGenerator

open ChessBoard

/-- `MoveGenerator.generatePawnMoves`. -/
def generatePawnMoves (gs : GameState) (fromSq : Coord) (p : Piece) : List Move :=
  let direction : Int := if p.color = .white then 1 else -1
  let startRank : Nat := if p.color = .white then 1 else 6
  let promotionRank : Int := if p.color = .white then 7 else 0
  let forwardMoves : List Move :=
    match coordinatesToSquare fromSq.file ((fromSq.rank : Int) + direction) with
    | some oneSquareForward =>
      if gs.position oneSquareForward = none then
        if (fromSq.rank : Int) + direction = promotionRank then
          [PieceType.queen, .rook, .bishop, .knight].map fun pr =>
            { fromSq := fromSq, toSq := oneSquareForward, piece := p, promotion := some pr }
        else
          { fromSq := fromSq, toSq := oneSquareForward, piece := p } ::
          (if fromSq.rank = startRank then
            match coordinatesToSquare fromSq.file ((fromSq.rank : Int) + 2 * direction) with
            | some twoSquaresForward =>
              if gs.position twoSquaresForward = none then
                [{ fromSq := fromSq, toSq := twoSquaresForward, piece := p }]
              else []
            | none => []
          else [])
      else []
    | none => []
  let captureMoves : List Move :=
    ([-1, 1] : List Int).flatMap fun fileOffset =>
      match coordinatesToSquare ((fromSq.file : Int) + fileOffset) ((fromSq.rank : Int) + direction) with
      | some captureSquare =>
        let normal : List Move :=
          match gs.position captureSquare with
          | some targetPiece =>
            if targetPiece.color ≠ p.color then
              if (fromSq.rank : Int) + direction = promotionRank then
                [PieceType.queen, .rook, .bishop, .knight].map fun pr =>
                  { fromSq := fromSq, toSq := captureSquare, piece := p,
                    captured := some targetPiece, promotion := some pr }
              else
                [{ fromSq := fromSq, toSq := captureSquare, piece := p,
                   captured := some targetPiece }]
            else []
          | none => []
        let ep : List Move :=
          if gs.enPassantTarget = some captureSquare then
            match coordinatesToSquare ((fromSq.file : Int) + fileOffset) fromSq.rank with
            | some capturedPawnSquare =>
              match gs.position capturedPawnSquare with
              | some capturedPawn =>
                [{ fromSq := fromSq, toSq := captureSquare, piece := p,
                   captured := some capturedPawn, enPassant := some true }]
              | none => []
            | none => []
          else []
        normal ++ ep
      | none => []
  forwardMoves ++ captureMoves

/-- One ray of `MoveGenerator.generateSlidingMoves` (the `for i = 1..7` loop
with its breaks); `fuel` counts the remaining loop iterations. -/
def slideRay (gs : GameState) (fromSq : Coord) (p : Piece) (fileDir rankDir : Int) :
    Nat → Int → List Move
  | 0, _ => []
  | fuel + 1, i =>
    match coordinatesToSquare ((fromSq.file : Int) + i * fileDir) ((fromSq.rank : Int) + i * rankDir) with
    | none => []
    | some toSq =>
      match gs.position toSq with
      | none =>
        { fromSq := fromSq, toSq := toSq, piece := p } ::
          slideRay gs fromSq p fileDir rankDir fuel (i + 1)
      | some targetPiece =>
        if targetPiece.color ≠ p.color then
          [{ fromSq := fromSq, toSq := toSq, piece := p, captured := some targetPiece }]
        else []

/-- `MoveGenerator.generateSlidingMoves`. -/
def generateSlidingMoves (gs : GameState) (fromSq : Coord) (p : Piece)
    (directions : List (Int × Int)) : List Move :=
  directions.flatMap fun d => slideRay gs fromSq p d.1 d.2 7 1

/-- `MoveGenerator.generateRookMoves`. -/
def generateRookMoves (gs : GameState) (fromSq : Coord) (p : Piece) : List Move :=
  generateSlidingMoves gs fromSq p [(0, 1), (0, -1), (1, 0), (-1, 0)]

/-- `MoveGenerator.generateBishopMoves`. -/
def generateBishopMoves (gs : GameState) (fromSq : Coord) (p : Piece) : List Move :=
  generateSlidingMoves gs fromSq p [(1, 1), (1, -1), (-1, 1), (-1, -1)]

/-- `MoveGenerator.generateQueenMoves`. -/
def generateQueenMoves (gs : GameState) (fromSq : Coord) (p : Piece) : List Move :=
  generateSlidingMoves gs fromSq p
    [(0, 1), (0, -1), (1, 0), (-1, 0), (1, 1), (1, -1), (-1, 1), (-1, -1)]

/-- The fixed offset set shared by `generateKnightMoves`/`generateKingMoves`. -/
def offsetMoves (gs : GameState) (fromSq : Coord) (p : Piece)
    (offsets : List (Int × Int)) : List Move :=
  offsets.flatMap fun off =>
    match coordinatesToSquare ((fromSq.file : Int) + off.1) ((fromSq.rank : Int) + off.2) with
    | some toSq =>
      match gs.position toSq with
      | none => [{ fromSq := fromSq, toSq := toSq, piece := p }]
      | some targetPiece =>
        if targetPiece.color ≠ p.color then
          [{ fromSq := fromSq, toSq := toSq, piece := p, captured := some targetPiece }]
        else []
    | none => []

/-- `MoveGenerator.generateKnightMoves`. -/
def generateKnightMoves (gs : GameState) (fromSq : Coord) (p : Piece) : List Move :=
  offsetMoves gs fromSq p
    [(-2, -1), (-2, 1), (-1, -2), (-1, 2), (1, -2), (1, 2), (2, -1), (2, 1)]

/-- `MoveGenerator.generateCastlingMoves`.  Squares are the literal a1/h1/…
coordinates used by the source. -/
def generateCastlingMoves (gs : GameState) (fromSq : Coord) (p : Piece) : List Move :=
  if p.color = .white ∧ fromSq = (⟨4, 0⟩ : Coord) then
    (if gs.castlingRights.whiteKingside = true ∧
        gs.position ⟨5, 0⟩ = none ∧ gs.position ⟨6, 0⟩ = none ∧
        gs.position ⟨7, 0⟩ = some ⟨.rook, .white⟩ then
      [{ fromSq := fromSq, toSq := ⟨6, 0⟩, piece := p, castling := some .kingside }]
    else []) ++
    (if gs.castlingRights.whiteQueenside = true ∧
        gs.position ⟨3, 0⟩ = none ∧ gs.position ⟨2, 0⟩ = none ∧ gs.position ⟨1, 0⟩ = none ∧
        gs.position ⟨0, 0⟩ = some ⟨.rook, .white⟩ then
      [{ fromSq := fromSq, toSq := ⟨2, 0⟩, piece := p, castling := some .queenside }]
    else [])
  else if p.color = .black ∧ fromSq = (⟨4, 7⟩ : Coord) then
    (if gs.castlingRights.blackKingside = true ∧
        gs.position ⟨5, 7⟩ = none ∧ gs.position ⟨6, 7⟩ = none ∧
        gs.position ⟨7, 7⟩ = some ⟨.rook, .black⟩ then
      [{ fromSq := fromSq, toSq := ⟨6, 7⟩, piece := p, castling := some .kingside }]
    else []) ++
    (if gs.castlingRights.blackQueenside = true ∧
        gs.position ⟨3, 7⟩ = none ∧ gs.position ⟨2, 7⟩ = none ∧ gs.position ⟨1, 7⟩ = none ∧
        gs.position ⟨0, 7⟩ = some ⟨.rook, .black⟩ then
      [{ fromSq := fromSq, toSq := ⟨2, 7⟩, piece := p, castling := some .queenside }]
    else [])
  else []

/-- `MoveGenerator.generateKingMoves` (offsets, then castling candidates). -/
def generateKingMoves (gs : GameState) (fromSq : Coord) (p : Piece) : List Move :=
  offsetMoves gs fromSq p
    [(-1, -1), (-1, 0), (-1, 1), (0, -1), (0, 1), (1, -1), (1, 0), (1, 1)] ++
  generateCastlingMoves gs fromSq p

/-- `MoveGenerator.generatePieceMoves` (dispatch over the piece kind). -/
def generatePieceMoves (gs : GameState) (fromSq : Coord) (p : Piece) : List Move :=
  match p.type with
  | .pawn => generatePawnMoves gs fromSq p
  | .rook => generateRookMoves gs fromSq p
  | .knight => generateKnightMoves gs fromSq p
  | .bishop => generateBishopMoves gs fromSq p
  | .queen => generateQueenMoves gs fromSq p
  | .king => generateKingMoves gs fromSq p

/-- `MoveGenerator.generatePseudoLegalMoves`. -/
def generatePseudoLegalMoves (gs : GameState) : List Move :=
  allSquares.flatMap fun sq =>
    match gs.position sq with
    | some piece =>
      if piece.color = gs.activeColor then generatePieceMoves gs sq piece else []
    | none => []

/-- `MoveGenerator.makeMove` — the simulation used by the legality filter.
Board updates happen in source order: destination, then origin, then the
castling rook, then the en-passant victim, then the promotion overwrite. -/
def makeMove (gs : GameState) (m : Move) : GameState :=
  let pos1 := setSquare (setSquare gs.position m.toSq (some m.piece)) m.fromSq none
  let pos2 :=
    match m.castling with
    | some .kingside =>
      let rookFrom : Coord := if m.piece.color = .white then ⟨7, 0⟩ else ⟨7, 7⟩
      let rookTo : Coord := if m.piece.color = .white then ⟨5, 0⟩ else ⟨5, 7⟩
      setSquare (setSquare pos1 rookTo (pos1 rookFrom)) rookFrom none
    | some .queenside =>
      let rookFrom : Coord := if m.piece.color = .white then ⟨0, 0⟩ else ⟨0, 7⟩
      let rookTo : Coord := if m.piece.color = .white then ⟨3, 0⟩ else ⟨3, 7⟩
      setSquare (setSquare pos1 rookTo (pos1 rookFrom)) rookFrom none
    | none => pos1
  let pos3 :=
    if m.enPassant.getD false then
      let capturedPawnSquare : Coord :=
        if m.piece.color = .white then ⟨m.toSq.file, 4⟩ else ⟨m.toSq.file, 3⟩
      setSquare pos2 capturedPawnSquare none
    else pos2
  let pos4 :=
    match m.promotion with
    | some pr => setSquare pos3 m.toSq (some ⟨pr, m.piece.color⟩)
    | none => pos3
  { gs with
      position := pos4,
      activeColor := if gs.activeColor = .white then .black else .white }

/-- `MoveGenerator.findKing` — first matching entry in iteration order. -/
def findKing (pos : Position) (color : PieceColor) : Option Coord :=
  allSquares.find? fun sq => decide (pos sq = some ⟨.king, color⟩)

/-- `MoveGenerator.isInCheck`. -/
def isInCheck (gs : GameState) (color : PieceColor) : Bool :=
  match findKing gs.position color with
  | none => false
  | some kingSquare =>
    let opponentColor : PieceColor := if color = .white then .black else .white
    let opponentMoves := generatePseudoLegalMoves { gs with activeColor := opponentColor }
    opponentMoves.any fun m => decide (m.toSq = kingSquare)

/-- `MoveGenerator.isLegalMove`. -/
def isLegalMove (gs : GameState) (m : Move) : Bool :=
  !(isInCheck (makeMove gs m) gs.activeColor)

/-- `MoveGenerator.generateLegalMoves`. -/
def generateLegalMoves (gs : GameState) : List Move :=
  (generatePseudoLegalMoves gs).filter fun m => isLegalMove gs m

end MoveGenerator

namespace ChessEngine

open ChessBoard

/-- The observable state of a `ChessEngine` object: the current `GameState`,
the store of allocated `moveHistory` arrays (`heap`), and the private
`moveHistory: string[]` FEN list (`fenHistory`). -/
structure EngineState where
  gameState : GameState
  heap : List (List Move)
  fenHistory : List String

/-- `ChessEngine.createInitialGameState()`, with `moveHistory: []` modelled
as a reference to a freshly allocated empty array at index `ref`. -/
def createInitialGameState (ref : Nat) : GameState :=
  { position := createInitialPosition,
    activeColor := .white,
    castlingRights := ⟨true, true, true, true⟩,
    enPassantTarget := none,
    halfmoveClock := 0,
    fullmoveNumber := 1,
    moveHistoryRef := ref }

/-- The engine right after `new ChessEngine()`: one allocated (empty)
history array, empty FEN history. -/
def initialEngine : EngineState :=
  { gameState := createInitialGameState 0, heap := [[]], fenHistory := [] }

/-- `ChessEngine.getGameState()` — the shallow copy `{ ...this.gameState }`:
all fields (including the `moveHistory` array reference) are copied. -/
def getGameState (es : EngineState) : GameState :=
  es.gameState

/-- `ChessEngine.applyMove`.  Pure: it builds the new `GameState` from the
old one; the spread `{ ...gameState }` carries the `moveHistoryRef` over
unchanged (the same array object). -/
def applyMove (gs : GameState) (m : Move) : GameState :=
  let pos1 := setSquare gs.position m.toSq
    (match m.promotion with
     | some pr => some ⟨pr, m.piece.color⟩
     | none => some m.piece)
  let pos2 := setSquare pos1 m.fromSq none
  let pos3 :=
    match m.castling with
    | some .kingside =>
      let rookFrom : Coord := if m.piece.color = .white then ⟨7, 0⟩ else ⟨7, 7⟩
      let rookTo : Coord := if m.piece.color = .white then ⟨5, 0⟩ else ⟨5, 7⟩
      setSquare (setSquare pos2 rookTo (pos2 rookFrom)) rookFrom none
    | some .queenside =>
      let rookFrom : Coord := if m.piece.color = .white then ⟨0, 0⟩ else ⟨0, 7⟩
      let rookTo : Coord := if m.piece.color = .white then ⟨3, 0⟩ else ⟨3, 7⟩
      setSquare (setSquare pos2 rookTo (pos2 rookFrom)) rookFrom none
    | none => pos2
  let pos4 :=
    if m.enPassant.getD false then
      let capturedPawnSquare : Coord :=
        if m.piece.color = .white then ⟨m.toSq.file, 4⟩ else ⟨m.toSq.file, 3⟩
      setSquare pos3 capturedPawnSquare none
    else pos3
  let epTarget : Option Coord :=
    if m.piece.type = .pawn then
      if ((m.toSq.rank : Int) - (m.fromSq.rank : Int)).natAbs = 2 then
        some ⟨m.fromSq.file, if m.piece.color = .white then 2 else 5⟩
      else none
    else none
  let cr0 := gs.castlingRights
  let cr1 :=
    if m.piece.type = .king then
      if m.piece.color = .white then
        { cr0 with whiteKingside := false, whiteQueenside := false }
      else
        { cr0 with blackKingside := false, blackQueenside := false }
    else cr0
  let cr2 :=
    if m.piece.type = .rook then
      let a := if m.fromSq = (⟨0, 0⟩ : Coord) then { cr1 with whiteQueenside := false } else cr1
      let b := if m.fromSq = (⟨7, 0⟩ : Coord) then { a with whiteKingside := false } else a
      let c := if m.fromSq = (⟨0, 7⟩ : Coord) then { b with blackQueenside := false } else b
      if m.fromSq = (⟨7, 7⟩ : Coord) then { c with blackKingside := false } else c
    else cr1
  { gs with
      position := pos4,
      activeColor := if gs.activeColor = .white then .black else .white,
      enPassantTarget := epTarget,
      halfmoveClock :=
        if m.captured.isSome || decide (m.piece.type = .pawn) then 0
        else gs.halfmoveClock + 1,
      fullmoveNumber :=
        if gs.activeColor = .black then gs.fullmoveNumber + 1 else gs.fullmoveNumber,
      castlingRights := cr2 }

/-- `ChessEngine.pieceToChar`. -/
def pieceToChar : PieceType → Char
  | .pawn => 'p'
  | .rook => 'r'
  | .knight => 'n'
  | .bishop => 'b'
  | .queen => 'q'
  | .king => 'k'

/-- Piece character of the simplified FEN: uppercase for white, lowercase
for black. -/
def fenPieceChar (p : Piece) : Char :=
  if p.color = .white then (pieceToChar p.type).toUpper else (pieceToChar p.type).toLower

/-- One rank of `ChessEngine.positionToFEN`: the inner file loop with its
running `emptyCount` (flushed as a single digit character, counts are ≤ 8). -/
def fenRow (pos : Position) (rank : Nat) : List Nat → Nat → String
  | [], emptyCount =>
    if emptyCount > 0 then String.singleton (Char.ofNat (48 + emptyCount)) else ""
  | f :: fs, emptyCount =>
    match pos ⟨f, rank⟩ with
    | none => fenRow pos rank fs (emptyCount + 1)
    | some p =>
      (if emptyCount > 0 then String.singleton (Char.ofNat (48 + emptyCount)) else "") ++
        String.singleton (fenPieceChar p) ++ fenRow pos rank fs 0

/-- `ChessEngine.positionToFEN` — the "simplified FEN for position
comparison": piece placement only (ranks 8 down to 1, separated by '/');
no side to move, castling, en passant or clock fields. -/
def positionToFEN (pos : Position) : String :=
  String.join ((([7, 6, 5, 4, 3, 2, 1, 0] : List Nat)).map fun r =>
    fenRow pos r [0, 1, 2, 3, 4, 5, 6, 7] 0 ++ (if r > 0 then "/" else ""))

/-- `ChessEngine.makeMove(move)`.  Returns the TS boolean result together
with the engine state after the call. -/
def makeMove (es : EngineState) (m : Move) : Bool × EngineState :=
  let legalMoves := MoveGenerator.generateLegalMoves es.gameState
  let isLegal := legalMoves.any fun legalMove =>
    decide (legalMove.fromSq = m.fromSq) && decide (legalMove.toSq = m.toSq) &&
      decide (legalMove.promotion = m.promotion)
  if isLegal then
    let gs2 := applyMove es.gameState m
    -- this.gameState.moveHistory.push(move): mutates the array shared with
    -- every earlier snapshot (the spread in applyMove kept the reference).
    let heap2 := es.heap.set gs2.moveHistoryRef ((es.heap.getD gs2.moveHistoryRef []) ++ [m])
    -- this.moveHistory.push(this.positionToFEN()): FEN of the new position.
    (true, { gameState := gs2, heap := heap2,
             fenHistory := es.fenHistory ++ [positionToFEN gs2.position] })
  else
    (false, es)

/-- `ChessEngine.isInsufficientMaterial`. -/
def isInsufficientMaterial (gs : GameState) : Bool :=
  let pieces := allSquares.filterMap gs.position
  if pieces.length = 2 then true
  else if pieces.length = 3 then
    let nonKingPieces := pieces.filter fun p => decide (p.type ≠ PieceType.king)
    decide (nonKingPieces.length = 1) &&
      (match nonKingPieces with
       | q :: _ => decide (q.type = .bishop) || decide (q.type = .knight)
       | [] => false)
  else false

/-- `ChessEngine.isGameOver()`. -/
def isGameOver (es : EngineState) : Option GameResult :=
  let legalMoves := MoveGenerator.generateLegalMoves es.gameState
  let inCheck := MoveGenerator.isInCheck es.gameState es.gameState.activeColor
  if legalMoves.length = 0 ∧ inCheck = true then
    some ⟨if es.gameState.activeColor = .white then .blackWins else .whiteWins, .checkmate⟩
  else if legalMoves.length = 0 ∧ inCheck = false then
    some ⟨.draw, .stalemate⟩
  else if 100 ≤ es.gameState.halfmoveClock then
    some ⟨.draw, .fiftyMove⟩
  else
    let currentPosition := positionToFEN es.gameState.position
    let repetitions := (es.fenHistory.filter fun pos => decide (pos = currentPosition)).length
    if 3 ≤ repetitions then
      some ⟨.draw, .threefoldRepetition⟩
    else if isInsufficientMaterial es.gameState then
      some ⟨.draw, .insufficientMaterial⟩
    else
      none

end ChessEngine

/-- JS numbers as used by the search: integers plus `Infinity`/`-Infinity`
(only comparisons, `Math.max`/`Math.min` and integer literals reach them). -/
inductive ExtInt where
  | int (n : Int)
  | posInf
  | negInf
deriving DecidableEq

namespace ExtInt

/-- The JS `<=` on the values that occur in the search. -/
def ble : ExtInt → ExtInt → Bool
  | .negInf, _ => true
  | .int _, .posInf => true
  | .posInf, .posInf => true
  | .int a, .int b => decide (a ≤ b)
  | .posInf, .int _ => false
  | .posInf, .negInf => false
  | .int _, .negInf => false

/-- The JS `<` (strict). -/
def blt (a b : ExtInt) : Bool := !(ble b a)

/-- `Math.max`. -/
def maxE (a b : ExtInt) : ExtInt := if ble a b then b else a

/-- `Math.min`. -/
def minE (a b : ExtInt) : ExtInt := if ble a b then a else b

end ExtInt

namespace ChessAI

open ChessBoard

/-- An entry of the transposition table `Map<string, {score, depth, move?}>`. -/
structure TTEntry where
  score : ExtInt
  depth : Nat
  move : Option Move
deriving DecidableEq

/-- The per-instance mutable caches of a `ChessAI` object. -/
structure AIState where
  transpositionTable : List (String × TTEntry)
  killerMoves : List (List Move)
  historyTable : List (String × Int)

/-- `Map.prototype.get`. -/
def ttGet (tt : List (String × TTEntry)) (k : String) : Option TTEntry :=
  (tt.find? fun e => decide (e.1 = k)).map (·.2)

/-- `Map.prototype.set` (replace in place, else append; insertion order kept). -/
def ttSet (tt : List (String × TTEntry)) (k : String) (v : TTEntry) : List (String × TTEntry) :=
  match tt with
  | [] => [(k, v)]
  | e :: rest => if e.1 = k then (k, v) :: rest else e :: ttSet rest k v

/-- `initializeKillerMoves()`: 20 empty killer lists. -/
def initKillerMoves : List (List Move) := List.replicate 20 []

/-- A `ChessAI`'s caches right after construction. -/
def initAIState : AIState :=
  { transpositionTable := [], killerMoves := initKillerMoves, historyTable := [] }

/-- `ChessAI.getPieceValue`. -/
def getPieceValue : PieceType → Int
  | .pawn => 100
  | .knight => 320
  | .bishop => 330
  | .rook => 500
  | .queen => 900
  | .king => 20000

/-- `ChessAI.getMVVLVA`. -/
def getMVVLVA (m : Move) : Int :=
  match m.captured with
  | none => 0
  | some victim => getPieceValue victim.type * 10 - getPieceValue m.piece.type

/-- `piece.color[0]`: 'w' or 'b'. -/
def colorChar : PieceColor → Char
  | .white => 'w'
  | .black => 'b'

/-- `piece.type[0]` as used by `getPositionKey`.  Note that both 'knight'
and 'king' start with 'k': the source key does not distinguish them. -/
def typeFirstChar : PieceType → Char
  | .pawn => 'p'
  | .rook => 'r'
  | .knight => 'k'
  | .bishop => 'b'
  | .queen => 'q'
  | .king => 'k'

/-- `ChessAI.getPositionKey`: ranks 8 down to 1, files a to h, two
characters per piece ('-' for empty), then the active color's initial. -/
def getPositionKey (gs : GameState) : String :=
  String.join ((([7, 6, 5, 4, 3, 2, 1, 0] : List Nat)).map fun r =>
    String.join ((([0, 1, 2, 3, 4, 5, 6, 7] : List Nat)).map fun f =>
      match gs.position ⟨f, r⟩ with
      | some p => String.singleton (colorChar p.color) ++ String.singleton (typeFirstChar p.type)
      | none => "-")) ++
  String.singleton (colorChar gs.activeColor)

/-- The file letter of a 0-based file index. -/
def fileChar (f : Nat) : Char := Char.ofNat (97 + f)

/-- The rank digit of a 0-based rank index. -/
def rankChar (r : Nat) : Char := Char.ofNat (49 + r)

/-- The square name of a coordinate ('e4' …), for `getMoveKey`. -/
def coordName (c : Coord) : String :=
  String.singleton (fileChar c.file) ++ String.singleton (rankChar c.rank)

/-- The TS name of a piece type. -/
def typeName : PieceType → String
  | .pawn => "pawn"
  | .rook => "rook"
  | .knight => "knight"
  | .bishop => "bishop"
  | .queen => "queen"
  | .king => "king"

/-- `ChessAI.getMoveKey`. -/
def getMoveKey (m : Move) : String :=
  coordName m.fromSq ++ "-" ++ coordName m.toSq ++ "-" ++ typeName m.piece.type

/-- `ChessAI.evaluateMaterial`. -/
def evaluateMaterial (gs : GameState) : Int :=
  (allSquares.filterMap gs.position).foldl
    (fun s p => s + (if p.color = .white then getPieceValue p.type else -getPieceValue p.type)) 0

/-- The piece-square tables of `getPieceSquareTables`, verbatim. -/
def pieceSquareTable : PieceType → List Int
  | .pawn =>
    [0, 0, 0, 0, 0, 0, 0, 0,
     50, 50, 50, 50, 50, 50, 50, 50,
     10, 10, 20, 30, 30, 20, 10, 10,
     5, 5, 10, 25, 25, 10, 5, 5,
     0, 0, 0, 20, 20, 0, 0, 0,
     5, -5, -10, 0, 0, -10, -5, 5,
     5, 10, 10, -20, -20, 10, 10, 5,
     0, 0, 0, 0, 0, 0, 0, 0]
  | .knight =>
    [-50, -40, -30, -30, -30, -30, -40, -50,
     -40, -20, 0, 0, 0, 0, -20, -40,
     -30, 0, 10, 15, 15, 10, 0, -30,
     -30, 5, 15, 20, 20, 15, 5, -30,
     -30, 0, 15, 20, 20, 15, 0, -30,
     -30, 5, 10, 15, 15, 10, 5, -30,
     -40, -20, 0, 5, 5, 0, -20, -40,
     -50, -40, -30, -30, -30, -30, -40, -50]
  | .bishop =>
    [-20, -10, -10, -10, -10, -10, -10, -20,
     -10, 0, 0, 0, 0, 0, 0, -10,
     -10, 0, 5, 10, 10, 5, 0, -10,
     -10, 5, 5, 10, 10, 5, 5, -10,
     -10, 0, 10, 10, 10, 10, 0, -10,
     -10, 10, 10, 10, 10, 10, 10, -10,
     -10, 5, 0, 0, 0, 0, 5, -10,
     -20, -10, -10, -10, -10, -10, -10, -20]
  | .rook =>
    [0, 0, 0, 0, 0, 0, 0, 0,
     5, 10, 10, 10, 10, 10, 10, 5,
     -5, 0, 0, 0, 0, 0, 0, -5,
     -5, 0, 0, 0, 0, 0, 0, -5,
     -5, 0, 0, 0, 0, 0, 0, -5,
     -5, 0, 0, 0, 0, 0, 0, -5,
     -5, 0, 0, 0, 0, 0, 0, -5,
     0, 0, 0, 5, 5, 0, 0, 0]
  | .queen =>
    [-20, -10, -10, -5, -5, -10, -10, -20,
     -10, 0, 0, 0, 0, 0, 0, -10,
     -10, 0, 5, 5, 5, 5, 0, -10,
     -5, 0, 5, 5, 5, 5, 0, -5,
     0, 0, 5, 5, 5, 5, 0, -5,
     -10, 5, 5, 5, 5, 5, 0, -10,
     -10, 0, 5, 0, 0, 0, 0, -10,
     -20, -10, -10, -5, -5, -10, -10, -20]
  | .king =>
    [-30, -40, -40, -50, -50, -40, -40, -30,
     -30, -40, -40, -50, -50, -40, -40, -30,
     -30, -40, -40, -50, -50, -40, -40, -30,
     -30, -40, -40, -50, -50, -40, -40, -30,
     -20, -30, -30, -40, -40, -30, -30, -20,
     -10, -20, -20, -20, -20, -20, -20, -10,
     20, 20, 0, 0, 0, 0, 20, 20,
     20, 30, 10, 0, 0, 10, 30, 20]

/-- `ChessAI.squareToIndex` on a coordinate: `rank * 8 + file`. -/
def squareToIndex (c : Coord) : Nat := c.rank * 8 + c.file

/-- `ChessAI.evaluatePosition_Positional`. -/
def evaluatePositionPositional (gs : GameState) : Int :=
  allSquares.foldl
    (fun s sq =>
      match gs.position sq with
      | some p =>
        let tableValue := (pieceSquareTable p.type).getD (squareToIndex sq) 0
        s + (if p.color = .white then tableValue else -tableValue)
      | none => s) 0

/-- `ChessAI.getKingSafetyScore`: −20 for a king in the 16 central squares. -/
def getKingSafetyScore (kingSquare : Coord) : Int :=
  if 2 ≤ kingSquare.file ∧ kingSquare.file ≤ 5 ∧ 2 ≤ kingSquare.rank ∧ kingSquare.rank ≤ 5 then
    -20
  else 0

/-- `ChessAI.evaluateKingSafety` (its `findKing` is the same entry scan as
`MoveGenerator.findKing`). -/
def evaluateKingSafety (gs : GameState) : Int :=
  (match MoveGenerator.findKing gs.position .white with
   | some k => getKingSafetyScore k
   | none => 0) -
  (match MoveGenerator.findKing gs.position .black with
   | some k => getKingSafetyScore k
   | none => 0)

/-- `ChessAI.hasAdjacentPawns`. -/
def hasAdjacentPawns (gs : GameState) (leftFile rightFile : Option Nat)
    (color : PieceColor) : Bool :=
  if leftFile = none ∧ rightFile = none then false
  else
    (List.range 8).any fun r =>
      (match leftFile with
       | some lf => decide (gs.position ⟨lf, r⟩ = some ⟨.pawn, color⟩)
       | none => false) ||
      (match rightFile with
       | some rf => decide (gs.position ⟨rf, r⟩ = some ⟨.pawn, color⟩)
       | none => false)

/-- `ChessAI.evaluatePawnStructure` (ranks `1..8` of the source are rank
indices `0..7` here; `files[index − 1]`/`files[index + 1]` are `none` off
the board). -/
def evaluatePawnStructure (gs : GameState) : Int :=
  ((List.range 8).map fun f =>
    let whitePawns := (List.range 8).filter fun r =>
      decide (gs.position ⟨f, r⟩ = some ⟨.pawn, .white⟩)
    let blackPawns := (List.range 8).filter fun r =>
      decide (gs.position ⟨f, r⟩ = some ⟨.pawn, .black⟩)
    let doubled : Int :=
      (if whitePawns.length > 1 then -(20 * ((whitePawns.length : Int) - 1)) else 0) +
      (if blackPawns.length > 1 then 20 * ((blackPawns.length : Int) - 1) else 0)
    let leftFile : Option Nat := if f = 0 then none else some (f - 1)
    let rightFile : Option Nat := if f = 7 then none else some (f + 1)
    let isolatedWhite : Int :=
      if whitePawns.length > 0 then
        if hasAdjacentPawns gs leftFile rightFile .white then 0 else -15
      else 0
    let isolatedBlack : Int :=
      if blackPawns.length > 0 then
        if hasAdjacentPawns gs leftFile rightFile .black then 0 else 15
      else 0
    doubled + isolatedWhite + isolatedBlack).sum

/-- `ChessAI.evaluatePosition`: the white-minus-black score, negated for
black to move. -/
def evaluatePosition (gs : GameState) : Int :=
  let score := evaluateMaterial gs + evaluatePositionPositional gs +
    evaluateKingSafety gs + evaluatePawnStructure gs
  if gs.activeColor = .white then score else -score

/-- Stable descending sort by an integer key — the behaviour of the JS
`Array.prototype.sort` with comparator `keyB − keyA` (the key of each move
is fixed, so the comparator is consistent, and modern `sort` is stable). -/
def insertByKeyDesc (key : Move → Int) (m : Move) : List Move → List Move
  | [] => [m]
  | x :: xs => if key m > key x then m :: x :: xs else x :: insertByKeyDesc key m xs

/-- See `insertByKeyDesc`; elements are inserted left to right, so equal
keys keep their original relative order. -/
def sortByKeyDesc (key : Move → Int) (l : List Move) : List Move :=
  l.foldl (fun acc m => insertByKeyDesc key m acc) []

/-- The score `orderMoves` sorts by: MVV-LVA for captures, +900 for
promotions, +100 for a killer-move match, plus the history weight.
(The source's killer comparison `includes(a)` is JS reference equality on
move objects; it is modelled as structural equality here.) -/
def moveOrderScore (st : AIState) (ply : Nat) (m : Move) : Int :=
  (if m.captured.isSome then getMVVLVA m else 0) +
  (if m.promotion.isSome then 900 else 0) +
  (if ply < st.killerMoves.length ∧
      ((st.killerMoves.getD ply []).any fun k => decide (k = m)) = true then 100 else 0) +
  (((st.historyTable.find? fun e => decide (e.1 = getMoveKey m)).map (·.2)).getD 0)

/-- `ChessAI.orderMoves`. -/
def orderMoves (st : AIState) (moves : List Move) (ply : Nat) : List Move :=
  sortByKeyDesc (moveOrderScore st ply) moves

/-- `ChessAI.makeMove` — the Search Engine's internal move application:
copy the position, move `move.piece` from `move.from` to `move.to`, toggle
the active color, and nothing else.  (The `new ChessEngine()` the source
creates is unused.) -/
def makeMove (gs : GameState) (m : Move) : GameState :=
  let newPosition := setSquare (setSquare gs.position m.toSq (some m.piece)) m.fromSq none
  { gs with
      position := newPosition,
      activeColor := if gs.activeColor = .white then .black else .white }

/-- The capture loop of `quiescenceSearch`, with its early `return beta` /
`return alpha` and the final `isMaximizing ? alpha : beta`. -/
def qLoop (next : GameState → ExtInt → ExtInt → ExtInt) (gs : GameState) (isMax : Bool) :
    List Move → ExtInt → ExtInt → ExtInt
  | [], alpha, beta => if isMax then alpha else beta
  | m :: rest, alpha, beta =>
    let score := next (makeMove gs m) alpha beta
    if isMax then
      if ExtInt.ble beta score then beta
      else qLoop next gs isMax rest (ExtInt.maxE alpha score) beta
    else
      if ExtInt.ble score alpha then alpha
      else qLoop next gs isMax rest alpha (ExtInt.minE beta score)

/-- `ChessAI.quiescenceSearch`.  The source counts its recursion depth up
and stops once `depth > 10`; here `fuel = 11 − depth` counts down (the
top-level call passes depth 0, i.e. fuel 11). -/
def quiescenceSearch : Nat → GameState → ExtInt → ExtInt → Bool → ExtInt
  | 0, gs, _alpha, _beta, _isMax => ExtInt.int (evaluatePosition gs)
  | fuel + 1, gs, alpha, beta, isMax =>
    let standPat := ExtInt.int (evaluatePosition gs)
    if isMax ∧ ExtInt.ble beta standPat = true then beta
    else if isMax = false ∧ ExtInt.ble standPat alpha = true then alpha
    else
      let alpha1 := if isMax then ExtInt.maxE alpha standPat else alpha
      let beta1 := if isMax then beta else ExtInt.minE beta standPat
      let captures := sortByKeyDesc getMVVLVA
        ((MoveGenerator.generateLegalMoves gs).filter fun m => m.captured.isSome)
      qLoop (fun gs2 a b => quiescenceSearch fuel gs2 a b (!isMax)) gs isMax captures alpha1 beta1

/-- The killer-move store on a beta cutoff: `unshift` then `slice(0, 2)`,
guarded by `!move.captured && ply < killerMoves.length`. -/
def storeKiller (st : AIState) (ply : Nat) (m : Move) : AIState :=
  if m.captured.isNone ∧ ply < st.killerMoves.length then
    { st with killerMoves := st.killerMoves.set ply ((m :: st.killerMoves.getD ply []).take 2) }
  else st

/-- The move loop of `minimax`: threads alpha/beta, the best score/move and
the mutable caches, breaking on `beta <= alpha` (after storing a killer). -/
def minimaxLoop (next : GameState → ExtInt → ExtInt → AIState → (ExtInt × Option Move) × AIState)
    (gs : GameState) (isMax : Bool) (ply : Nat) :
    List Move → ExtInt → ExtInt → ExtInt → Option Move → AIState →
      ExtInt × Option Move × AIState
  | [], _alpha, _beta, best, bestMv, st => (best, bestMv, st)
  | m :: rest, alpha, beta, best, bestMv, st =>
    let r := next (makeMove gs m) alpha beta st
    let score := r.1.1
    let st1 := r.2
    if isMax then
      let best1 := if ExtInt.blt best score then score else best
      let bestMv1 := if ExtInt.blt best score then some m else bestMv
      let alpha1 := ExtInt.maxE alpha best1
      if ExtInt.ble beta alpha1 then (best1, bestMv1, storeKiller st1 ply m)
      else minimaxLoop next gs isMax ply rest alpha1 beta best1 bestMv1 st1
    else
      let best1 := if ExtInt.blt score best then score else best
      let bestMv1 := if ExtInt.blt score best then some m else bestMv
      let beta1 := ExtInt.minE beta best1
      if ExtInt.ble beta1 alpha then (best1, bestMv1, storeKiller st1 ply m)
      else minimaxLoop next gs isMax ply rest alpha beta1 best1 bestMv1 st1

/-- `ChessAI.minimax(gameState, depth, alpha, beta, isMaximizing, ply)`.
The recursion depth is the first argument (for structural recursion); the
mutable caches are passed and returned explicitly.  A transposition-table
hit with stored depth ≥ requested depth returns immediately; at depth 0
the score is the quiescence search (initial quiescence depth 0 = fuel 11);
with no legal moves the mate/stalemate scores are returned without storing;
otherwise the move loop runs and the result is stored in the table. -/
def minimax : Nat → AIState → GameState → ExtInt → ExtInt → Bool → Nat →
    (ExtInt × Option Move) × AIState
  | 0, st, gs, alpha, beta, isMax, _ply =>
    (match ttGet st.transpositionTable (getPositionKey gs) with
     | some e => ((e.score, e.move), st)  -- ttEntry.depth >= 0 always holds
     | none => ((quiescenceSearch 11 gs alpha beta isMax, none), st))
  | depth + 1, st, gs, alpha, beta, isMax, ply =>
    let key := getPositionKey gs
    let probe : Option (ExtInt × Option Move) :=
      match ttGet st.transpositionTable key with
      | some e => if depth + 1 ≤ e.depth then some (e.score, e.move) else none
      | none => none
    match probe with
    | some r => (r, st)
    | none =>
      let moves := orderMoves st (MoveGenerator.generateLegalMoves gs) ply
      if moves = [] then
        if MoveGenerator.isInCheck gs gs.activeColor then
          ((if isMax then ExtInt.int (-10000 + (ply : Int)) else ExtInt.int (10000 - (ply : Int)),
            none), st)
        else ((ExtInt.int 0, none), st)  -- stalemate
      else
        let r := minimaxLoop
          (fun gs2 a b st2 => minimax depth st2 gs2 a b (!isMax) (ply + 1))
          gs isMax ply moves alpha beta
          (if isMax then ExtInt.negInf else ExtInt.posInf) none st
        let st3 := r.2.2
        ((r.1, r.2.1),
         { st3 with transpositionTable := ttSet st3.transpositionTable key ⟨r.1, depth + 1, r.2.1⟩ })

end ChessAI

/-! ### The Game State Manager as a transition system, and concrete states -/

/-- A sequence of `ChessEngine.makeMove` calls (each call keeps the state
returned by the previous one, whether or not the move was accepted). -/
def playMoves (es : ChessEngine.EngineState) (ms : List Move) : ChessEngine.EngineState :=
  ms.foldl (fun e m => (ChessEngine.makeMove e m).2) es

/-- Modelled from the claim's words, not from the source (the source
records only the side-less `positionToFEN` string): the number of times
the reduced key "position together with the side to move" of the current
position occurs across the recorded history.  Entry `i` of the recorded
history is the position after ply `i + 1` of a game that starts with white
to move, so the side to move at entry `i` is black for even `i` and white
for odd `i`. -/
def specSideKeyCount (es : ChessEngine.EngineState) : Nat :=
  let fen := ChessEngine.positionToFEN es.gameState.position
  ((List.range es.fenHistory.length).filter fun i =>
    decide (es.fenHistory.getD i "" = fen) &&
      decide ((if i % 2 = 0 then PieceColor.black else PieceColor.white) =
        es.gameState.activeColor)).length

/-- A minimal two-king position: white king a1, black king h8. -/
def kingsPos : Position := fun c =>
  if c = (⟨0, 0⟩ : Coord) then some ⟨.king, .white⟩
  else if c = (⟨7, 7⟩ : Coord) then some ⟨.king, .black⟩
  else none

/-- A game state for `kingsPos`, white to move. -/
def kingsGS : GameState :=
  { position := kingsPos, activeColor := .white,
    castlingRights := ⟨false, false, false, false⟩, enPassantTarget := none,
    halfmoveClock := 0, fullmoveNumber := 1, moveHistoryRef := 0 }

/-- An engine state holding `kingsGS`. -/
def kingsEngine : ChessEngine.EngineState :=
  { gameState := kingsGS, heap := [[]], fenHistory := [] }

/-- `kingsEngine` with the halfmove clock already at 100. -/
def kingsEngineClock100 : ChessEngine.EngineState :=
  { kingsEngine with gameState := { kingsGS with halfmoveClock := 100 } }

/-- The white king move a1→a2 (a legal move of `kingsGS`). -/
def mKa1a2 : Move :=
  { fromSq := ⟨0, 0⟩, toSq := ⟨0, 1⟩, piece := ⟨.king, .white⟩ }

/-- A submitted move agreeing with the legal a1→a2 on from/to/promotion but
whose `piece` field claims a white queen is moving. -/
def fakeQueenMove : Move :=
  { fromSq := ⟨0, 0⟩, toSq := ⟨0, 1⟩, piece := ⟨.queen, .white⟩ }

/-- A stalemate position: black king h8, white king f7, white queen g6,
black to move — black has no legal move and is not in check. -/
def stalemateGS : GameState :=
  { position := fun c =>
      if c = (⟨7, 7⟩ : Coord) then some ⟨.king, .black⟩
      else if c = (⟨5, 6⟩ : Coord) then some ⟨.king, .white⟩
      else if c = (⟨6, 5⟩ : Coord) then some ⟨.queen, .white⟩
      else none,
    activeColor := .black,
    castlingRights := ⟨false, false, false, false⟩, enPassantTarget := none,
    halfmoveClock := 0, fullmoveNumber := 1, moveHistoryRef := 0 }

/-- A `ChessAI` cache state whose transposition table already holds an
entry (score 42, stored depth 5) under the key of `stalemateGS`. -/
def poisonedAIState : ChessAI.AIState :=
  { transpositionTable := [(ChessAI.getPositionKey stalemateGS, ⟨ExtInt.int 42, 5, none⟩)],
    killerMoves := ChessAI.initKillerMoves, historyTable := [] }

/-- A game from the initial position in which white loses a tempo with the
king triangulation e1–e2–f2–e1 (after freeing e2 and f2 with 1. e4, 2. f4)
while black shuttles the queen's knight b8–c6–b8: the piece placement
after move 4 recurs after moves 9 and 16, but with the side to move
differing between those occurrences. -/
def triangulationMoves : List Move :=
  [{ fromSq := ⟨4, 1⟩, toSq := ⟨4, 3⟩, piece := ⟨.pawn, .white⟩ },    -- 1. e4
   { fromSq := ⟨1, 7⟩, toSq := ⟨2, 5⟩, piece := ⟨.knight, .black⟩ },  -- 1... Nc6
   { fromSq := ⟨5, 1⟩, toSq := ⟨5, 3⟩, piece := ⟨.pawn, .white⟩ },    -- 2. f4
   { fromSq := ⟨2, 5⟩, toSq := ⟨1, 7⟩, piece := ⟨.knight, .black⟩ },  -- 2... Nb8
   { fromSq := ⟨4, 0⟩, toSq := ⟨4, 1⟩, piece := ⟨.king, .white⟩ },    -- 3. Ke2
   { fromSq := ⟨1, 7⟩, toSq := ⟨2, 5⟩, piece := ⟨.knight, .black⟩ },  -- 3... Nc6
   { fromSq := ⟨4, 1⟩, toSq := ⟨5, 1⟩, piece := ⟨.king, .white⟩ },    -- 4. Kf2
   { fromSq := ⟨2, 5⟩, toSq := ⟨1, 7⟩, piece := ⟨.knight, .black⟩ },  -- 4... Nb8
   { fromSq := ⟨5, 1⟩, toSq := ⟨4, 0⟩, piece := ⟨.king, .white⟩ },    -- 5. Ke1
   { fromSq := ⟨1, 7⟩, toSq := ⟨2, 5⟩, piece := ⟨.knight, .black⟩ },  -- 5... Nc6
   { fromSq := ⟨4, 0⟩, toSq := ⟨4, 1⟩, piece := ⟨.king, .white⟩ },    -- 6. Ke2
   { fromSq := ⟨2, 5⟩, toSq := ⟨1, 7⟩, piece := ⟨.knight, .black⟩ },  -- 6... Nb8
   { fromSq := ⟨4, 1⟩, toSq := ⟨5, 1⟩, piece := ⟨.king, .white⟩ },    -- 7. Kf2
   { fromSq := ⟨1, 7⟩, toSq := ⟨2, 5⟩, piece := ⟨.knight, .black⟩ },  -- 7... Nc6
   { fromSq := ⟨5, 1⟩, toSq := ⟨4, 0⟩, piece := ⟨.king, .white⟩ },    -- 8. Ke1
   { fromSq := ⟨2, 5⟩, toSq := ⟨1, 7⟩, piece := ⟨.knight, .black⟩ }]  -- 8... Nb8

/-- The engine after playing `triangulationMoves` from the initial state. -/
def triangulationEngine : ChessEngine.EngineState :=
  playMoves ChessEngine.initialEngine triangulationMoves

/-- `kingsEngine` with the current position's FEN already recorded three
times in the engine's FEN history. -/
def repEngine : ChessEngine.EngineState :=
  { kingsEngine with
      fenHistory := List.replicate 3 (ChessEngine.positionToFEN kingsGS.position) }

/-- A degenerate `Move` value whose origin and destination coincide. -/
def degenerateMove : Move :=
  { fromSq := ⟨0, 0⟩, toSq := ⟨0, 0⟩, piece := ⟨.king, .white⟩ }

/-! ### Helper lemmas -/

/-- Reading back the index just written by `List.set`. -/
theorem getD_set_self {α : Type} (l : List α) (i : Nat) (v d : α) (h : i < l.length) :
    (l.set i v).getD i d = v := by
  simp [List.getD_eq_getElem?_getD, List.getElem?_set_self', h]

/-! ### C1: legal moves never leave the mover's own king attacked -/

/-- C1.  Every move returned by `MoveGenerator.generateLegalMoves` passes
the legality filter: in the position obtained by applying it (with the
move generator's own simulation `MoveGenerator.makeMove`), the mover's own
king is not attacked. -/
theorem legal_moves_never_leave_own_king_in_check (gs : GameState) (m : Move)
    (h : m ∈ MoveGenerator.generateLegalMoves gs) :
    MoveGenerator.isInCheck (MoveGenerator.makeMove gs m) gs.activeColor = false := by
  have h2 := (List.mem_filter.mp (by simpa [MoveGenerator.generateLegalMoves] using h)).2
  simpa [MoveGenerator.isLegalMove] using h2

/-- Witness for C1: a1→a2 is generated as legal in the two-king position,
and applying it leaves the white king unattacked. -/
theorem legal_moves_never_leave_own_king_in_check_witness :
    mKa1a2 ∈ MoveGenerator.generateLegalMoves kingsGS ∧
      MoveGenerator.isInCheck (MoveGenerator.makeMove kingsGS mKa1a2) kingsGS.activeColor = false :=
  ⟨by decide, legal_moves_never_leave_own_king_in_check kingsGS mKa1a2 (by decide)⟩

/-! ### C4: mutation of an earlier snapshot's move history (code bug) -/

/-- C4.  The claim (and the spec's immutability invariant) fail on the
code: a snapshot obtained from `getGameState` before a successful
`makeMove` shares its `moveHistory` array with the engine (the spread in
`applyMove` copies the reference), and `this.gameState.moveHistory.push(move)`
is visible through the snapshot.  Concretely: the snapshot's array is
empty before the move and holds the move afterwards, while the reference
itself is untouched. -/
theorem snapshot_moveHistory_mutated_by_makeMove :
    (ChessEngine.makeMove kingsEngine mKa1a2).1 = true ∧
    (ChessEngine.makeMove kingsEngine mKa1a2).2.gameState.moveHistoryRef =
      (ChessEngine.getGameState kingsEngine).moveHistoryRef ∧
    kingsEngine.heap.getD (ChessEngine.getGameState kingsEngine).moveHistoryRef [] = [] ∧
    (ChessEngine.makeMove kingsEngine mKa1a2).2.heap.getD
      (ChessEngine.getGameState kingsEngine).moveHistoryRef [] = [mKa1a2] := by
  decide

/-! ### C9: the Search Engine's internal move application -/

/-- Counterexample for C9 as stated: for a move whose origin and
destination coincide, the destination square does not end up holding
`move.piece` (the source writes the destination first and then empties the
origin), so "move.to is set to move.piece" fails for that input. -/
theorem ai_makeMove_degenerate_counterexample :
    ¬ (ChessAI.makeMove kingsGS degenerateMove).position degenerateMove.toSq =
        some degenerateMove.piece := by
  decide

/-- C9 (amended: for moves with distinct origin and destination).
`ChessAI.makeMove` changes the position only at `move.from` (emptied) and
`move.to` (set to `move.piece`) — no promotion replacement, castling rook
move or en-passant removal — and leaves the en-passant target, castling
rights, halfmove clock and fullmove number unchanged. -/
theorem ai_makeMove_frame (gs : GameState) (m : Move) :
    ((ChessAI.makeMove gs m).enPassantTarget = gs.enPassantTarget ∧
     (ChessAI.makeMove gs m).castlingRights = gs.castlingRights ∧
     (ChessAI.makeMove gs m).halfmoveClock = gs.halfmoveClock ∧
     (ChessAI.makeMove gs m).fullmoveNumber = gs.fullmoveNumber) ∧
    (∀ c : Coord, c ≠ m.fromSq → c ≠ m.toSq →
      (ChessAI.makeMove gs m).position c = gs.position c) ∧
    (m.fromSq ≠ m.toSq →
      (ChessAI.makeMove gs m).position m.toSq = some m.piece ∧
      (ChessAI.makeMove gs m).position m.fromSq = none) := by
  refine ⟨⟨rfl, rfl, rfl, rfl⟩, ?_, ?_⟩
  · intro c h1 h2
    simp [ChessAI.makeMove, setSquare, h1, h2]
  · intro hne
    constructor <;> simp [ChessAI.makeMove, setSquare, hne, Ne.symm hne]

/-- Witness for C9's amended theorem at the two-king position with a1→a2:
h8 is untouched, a2 holds the king, a1 is empty. -/
theorem ai_makeMove_frame_witness :
    (ChessAI.makeMove kingsGS mKa1a2).position ⟨7, 7⟩ = kingsGS.position ⟨7, 7⟩ ∧
    (ChessAI.makeMove kingsGS mKa1a2).position mKa1a2.toSq = some mKa1a2.piece ∧
    (ChessAI.makeMove kingsGS mKa1a2).position mKa1a2.fromSq = none :=
  ⟨(ai_makeMove_frame kingsGS mKa1a2).2.1 ⟨7, 7⟩ (by decide) (by decide),
   ((ai_makeMove_frame kingsGS mKa1a2).2.2 (by decide)).1,
   ((ai_makeMove_frame kingsGS mKa1a2).2.2 (by decide)).2⟩

/-! ### C10: makeMove applies the caller-supplied Move object -/

/-- C10.  `ChessEngine.makeMove` matches only (from, to, promotion) and
then applies the caller's `Move` object itself: in the two-king position
(white king on a1), the submitted move a1→a2 with `piece` claiming a white
queen is accepted and places a white queen on a2. -/
theorem makeMove_applies_submitted_piece :
    kingsEngine.gameState.position fakeQueenMove.fromSq = some ⟨.king, .white⟩ ∧
    (ChessEngine.makeMove kingsEngine fakeQueenMove).1 = true ∧
    (ChessEngine.makeMove kingsEngine fakeQueenMove).2.gameState.position fakeQueenMove.toSq =
      some ⟨.queen, .white⟩ := by
  decide

/-! ### C5: minimax with zero legal moves -/

/-- Counterexample for C5 as stated: `minimax` consults the transposition
table before the terminal test, so when the instance's table already holds
an entry for the position's key with stored depth ≥ the requested depth,
the cached score is returned instead of the mate/stalemate score.  Here
the stalemate position (zero legal moves, not in check) should score 0 per
the claim, but a poisoned instance returns the cached 42. -/
theorem minimax_tt_hit_overrides_terminal_score :
    MoveGenerator.generateLegalMoves stalemateGS = [] ∧
    MoveGenerator.isInCheck stalemateGS stalemateGS.activeColor = false ∧
    (ChessAI.minimax 1 poisonedAIState stalemateGS .negInf .posInf true 0).1.1 ≠
      ExtInt.int 0 := by
  decide

/-- C5 (amended: provided the transposition table holds no entry for the
position's key with stored depth ≥ the requested depth — in particular for
a fresh `ChessAI`, or one whose cached entry for the key is shallower than
the request).  With zero legal moves and depth > 0, `minimax` returns
−10000 + ply when in check and maximizing, 10000 − ply when in check and
minimizing, and 0 (stalemate) otherwise. -/
theorem minimax_no_moves_score (st : ChessAI.AIState) (gs : GameState) (depth : Nat)
    (alpha beta : ExtInt) (isMax : Bool) (ply : Nat)
    (hTT : ∀ e : ChessAI.TTEntry,
      ChessAI.ttGet st.transpositionTable (ChessAI.getPositionKey gs) = some e →
        e.depth < depth)
    (hMoves : MoveGenerator.generateLegalMoves gs = [])
    (hd : 0 < depth) :
    (ChessAI.minimax depth st gs alpha beta isMax ply).1.1 =
      if MoveGenerator.isInCheck gs gs.activeColor then
        (if isMax then ExtInt.int (-10000 + (ply : Int)) else ExtInt.int (10000 - (ply : Int)))
      else ExtInt.int 0 := by
  cases depth with
  | zero => exact absurd hd (by omega)
  | succ d =>
    cases h : ChessAI.ttGet st.transpositionTable (ChessAI.getPositionKey gs) with
    | none =>
      simp only [ChessAI.minimax, h, hMoves, ChessAI.orderMoves, ChessAI.sortByKeyDesc,
        List.foldl_nil]
      cases hc : MoveGenerator.isInCheck gs gs.activeColor <;> cases isMax <;> simp
    | some e =>
      have he : ¬ (d + 1 ≤ e.depth) := by
        have := hTT e h
        omega
      simp only [ChessAI.minimax, h, he, hMoves, ChessAI.orderMoves, ChessAI.sortByKeyDesc,
        List.foldl_nil]
      cases hc : MoveGenerator.isInCheck gs gs.activeColor <;> cases isMax <;> simp

/-- A `ChessAI` cache state whose transposition table holds an entry for
the key of `stalemateGS` that is shallower (stored depth 0) than a depth-1
request, so the probe fails and the terminal scoring still applies. -/
def shallowAIState : ChessAI.AIState :=
  { transpositionTable := [(ChessAI.getPositionKey stalemateGS, ⟨ExtInt.int 42, 0, none⟩)],
    killerMoves := ChessAI.initKillerMoves, historyTable := [] }

/-- Witness for C5's amended theorem: an instance whose cached entry for
the stalemate position is shallower (stored depth 0) than the requested
depth 1 still scores the position as 0. -/
theorem minimax_no_moves_score_witness :
    ChessAI.ttGet shallowAIState.transpositionTable (ChessAI.getPositionKey stalemateGS) =
      some ⟨ExtInt.int 42, 0, none⟩ ∧
    MoveGenerator.generateLegalMoves stalemateGS = [] ∧
    (ChessAI.minimax 1 shallowAIState stalemateGS .negInf .posInf true 0).1.1 =
      ExtInt.int 0 :=
  ⟨by decide, by decide,
   (minimax_no_moves_score shallowAIState stalemateGS 1 .negInf .posInf true 0
      (fun e h => by
        have he : (⟨ExtInt.int 42, 0, none⟩ : ChessAI.TTEntry) = e := by
          have hv : ChessAI.ttGet shallowAIState.transpositionTable
              (ChessAI.getPositionKey stalemateGS) = some ⟨ExtInt.int 42, 0, none⟩ := by decide
          exact Option.some.inj ((hv.symm).trans h)
        rw [← he]
        decide)
      (by decide) (by decide)).trans (by decide)⟩

/-! ### C2: makeMove matches on (from, to, promotion) and is all-or-nothing -/

/-- C2.  `ChessEngine.makeMove` returns true iff the submitted move agrees
on (from, to, promotion) with some currently legal move; on false the
whole engine state is unchanged (the model is total, so no exception can
occur); on true the new game state is `applyMove` of the old one (position
updated, en-passant target / castling rights / halfmove clock / fullmove
number recomputed), the active color is toggled, the move is appended to
the history array, and the new position's FEN is recorded. -/
theorem makeMove_match_iff_all_or_nothing (es : ChessEngine.EngineState) (m : Move)
    (href : es.gameState.moveHistoryRef < es.heap.length) :
    ((ChessEngine.makeMove es m).1 = true ↔
      ∃ lm ∈ MoveGenerator.generateLegalMoves es.gameState,
        lm.fromSq = m.fromSq ∧ lm.toSq = m.toSq ∧ lm.promotion = m.promotion) ∧
    ((ChessEngine.makeMove es m).1 = false → (ChessEngine.makeMove es m).2 = es) ∧
    ((ChessEngine.makeMove es m).1 = true →
      (ChessEngine.makeMove es m).2.gameState = ChessEngine.applyMove es.gameState m ∧
      (ChessEngine.makeMove es m).2.gameState.activeColor =
        (if es.gameState.activeColor = .white then PieceColor.black else .white) ∧
      (ChessEngine.makeMove es m).2.gameState.moveHistoryRef = es.gameState.moveHistoryRef ∧
      (ChessEngine.makeMove es m).2.heap.getD es.gameState.moveHistoryRef [] =
        es.heap.getD es.gameState.moveHistoryRef [] ++ [m] ∧
      (ChessEngine.makeMove es m).2.fenHistory =
        es.fenHistory ++
          [ChessEngine.positionToFEN (ChessEngine.applyMove es.gameState m).position]) := by
  by_cases hb : ((MoveGenerator.generateLegalMoves es.gameState).any fun legalMove =>
      decide (legalMove.fromSq = m.fromSq) && decide (legalMove.toSq = m.toSq) &&
        decide (legalMove.promotion = m.promotion)) = true
  · refine ⟨?_, ?_, ?_⟩
    · simp only [ChessEngine.makeMove, hb, if_true, true_iff]
      obtain ⟨lm, hlm, hp⟩ := List.any_eq_true.mp hb
      simp only [Bool.and_eq_true, decide_eq_true_eq] at hp
      exact ⟨lm, hlm, hp.1.1, hp.1.2, hp.2⟩
    · simp [ChessEngine.makeMove, hb]
    · intro _
      have hmm : ChessEngine.makeMove es m =
          (true,
           { gameState := ChessEngine.applyMove es.gameState m,
             heap := es.heap.set (ChessEngine.applyMove es.gameState m).moveHistoryRef
               (es.heap.getD (ChessEngine.applyMove es.gameState m).moveHistoryRef [] ++ [m]),
             fenHistory := es.fenHistory ++
               [ChessEngine.positionToFEN (ChessEngine.applyMove es.gameState m).position] }) := by
        simp only [ChessEngine.makeMove, hb, if_true]
      rw [hmm]
      refine ⟨rfl, rfl, rfl, ?_, rfl⟩
      have hr : (ChessEngine.applyMove es.gameState m).moveHistoryRef =
          es.gameState.moveHistoryRef := rfl
      rw [hr, getD_set_self _ _ _ _ href]
  · have hiff : ¬ ∃ lm ∈ MoveGenerator.generateLegalMoves es.gameState,
        lm.fromSq = m.fromSq ∧ lm.toSq = m.toSq ∧ lm.promotion = m.promotion := by
      intro ⟨lm, hlm, h1, h2, h3⟩
      exact hb (List.any_eq_true.mpr ⟨lm, hlm, by simp [h1, h2, h3]⟩)
    refine ⟨?_, ?_, ?_⟩
    · simp [ChessEngine.makeMove, hb, hiff]
    · intro _; simp [ChessEngine.makeMove, hb]
    · intro h
      exact absurd h (by simp [ChessEngine.makeMove, hb])

/-- Witness for C2 at the two-king engine with the legal a1→a2. -/
theorem makeMove_match_iff_all_or_nothing_witness :
    kingsEngine.gameState.moveHistoryRef < kingsEngine.heap.length ∧
    ((ChessEngine.makeMove kingsEngine mKa1a2).1 = true ∧
      (ChessEngine.makeMove kingsEngine mKa1a2).2.gameState =
        ChessEngine.applyMove kingsEngine.gameState mKa1a2 ∧
      (ChessEngine.makeMove kingsEngine mKa1a2).2.heap.getD
          kingsEngine.gameState.moveHistoryRef [] =
        kingsEngine.heap.getD kingsEngine.gameState.moveHistoryRef [] ++ [mKa1a2]) := by
  have h := makeMove_match_iff_all_or_nothing kingsEngine mKa1a2 (by decide)
  have ht : (ChessEngine.makeMove kingsEngine mKa1a2).1 = true := by decide
  exact ⟨by decide, ht, (h.2.2 ht).1, (h.2.2 ht).2.2.2.1⟩

/-! ### C3: threefold repetition ignores the side to move -/

/-- Counterexample for C3 as stated: after the 16-ply king-triangulation
game, `isGameOver` reports a threefold-repetition draw although the
reduced key "position together with the side to move" of the current
position occurs fewer than 3 times in the recorded history (the source
key `positionToFEN` contains no side-to-move component, so occurrences of
the same placement with different sides to move are counted together). -/
theorem threefold_ignores_side_to_move :
    ChessEngine.isGameOver triangulationEngine =
      some ⟨.draw, .threefoldRepetition⟩ ∧
    specSideKeyCount triangulationEngine < 3 := by
  decide

/-- With no legal move, `isGameOver` reports checkmate or stalemate. -/
theorem isGameOver_no_moves (es : ChessEngine.EngineState)
    (h1 : MoveGenerator.generateLegalMoves es.gameState = []) :
    ChessEngine.isGameOver es =
      (if MoveGenerator.isInCheck es.gameState es.gameState.activeColor then
        some ⟨if es.gameState.activeColor = .white then .blackWins else .whiteWins, .checkmate⟩
       else some ⟨.draw, .stalemate⟩) := by
  have hlen : (MoveGenerator.generateLegalMoves es.gameState).length = 0 := by simp [h1]
  simp only [ChessEngine.isGameOver]
  rcases Bool.eq_false_or_eq_true
      (MoveGenerator.isInCheck es.gameState es.gameState.activeColor) with hc | hc
  · rw [if_pos ⟨hlen, hc⟩, hc]
    simp
  · rw [if_neg (fun h => by rw [hc] at h; exact absurd h.2 (by simp)),
      if_pos ⟨hlen, hc⟩, hc]
    simp

/-- With a legal move available and the clock at 100, `isGameOver` reports
the fifty-move draw. -/
theorem isGameOver_fifty (es : ChessEngine.EngineState)
    (h1 : MoveGenerator.generateLegalMoves es.gameState ≠ [])
    (h2 : 100 ≤ es.gameState.halfmoveClock) :
    ChessEngine.isGameOver es = some ⟨.draw, .fiftyMove⟩ := by
  have hlen : ¬ (MoveGenerator.generateLegalMoves es.gameState).length = 0 := by
    simpa [List.length_eq_zero] using h1
  simp only [ChessEngine.isGameOver]
  rw [if_neg (fun h => hlen h.1), if_neg (fun h => hlen h.1), if_pos h2]

/-- With a legal move available and the clock below 100, `isGameOver` is
decided by the repetition count and then the material test. -/
theorem isGameOver_not_terminal (es : ChessEngine.EngineState)
    (h1 : MoveGenerator.generateLegalMoves es.gameState ≠ [])
    (h2 : es.gameState.halfmoveClock < 100) :
    ChessEngine.isGameOver es =
      (if 3 ≤ (es.fenHistory.filter fun s =>
          decide (s = ChessEngine.positionToFEN es.gameState.position)).length then
        some ⟨.draw, .threefoldRepetition⟩
       else if ChessEngine.isInsufficientMaterial es.gameState then
        some ⟨.draw, .insufficientMaterial⟩
       else none) := by
  have hlen : ¬ (MoveGenerator.generateLegalMoves es.gameState).length = 0 := by
    simpa [List.length_eq_zero] using h1
  simp only [ChessEngine.isGameOver]
  rw [if_neg (fun h => hlen h.1), if_neg (fun h => hlen h.1), if_neg (by omega)]

/-- C3 (amended: the repetition key is the placement-only FEN, without the
side to move).  When the position is not already terminal by lack of legal
moves and the halfmove clock is below 100, `isGameOver` reports a
threefold-repetition draw exactly when the current position's placement
FEN occurs at least 3 times in the recorded history. -/
theorem threefold_iff_fen_count (es : ChessEngine.EngineState)
    (h1 : MoveGenerator.generateLegalMoves es.gameState ≠ [])
    (h2 : es.gameState.halfmoveClock < 100) :
    (ChessEngine.isGameOver es = some ⟨.draw, .threefoldRepetition⟩ ↔
      3 ≤ (es.fenHistory.filter fun s =>
        decide (s = ChessEngine.positionToFEN es.gameState.position)).length) := by
  rw [isGameOver_not_terminal es h1 h2]
  by_cases hrep : 3 ≤ (es.fenHistory.filter fun s =>
      decide (s = ChessEngine.positionToFEN es.gameState.position)).length
  · simp [hrep]
  · rw [if_neg hrep]
    constructor
    · intro hcon
      split_ifs at hcon <;> simp_all
    · intro hcon
      exact absurd hcon hrep

/-- Witness for C3's amended theorem: an engine state whose history already
holds the current FEN three times reports the threefold draw. -/
theorem threefold_iff_fen_count_witness :
    MoveGenerator.generateLegalMoves repEngine.gameState ≠ [] ∧
    repEngine.gameState.halfmoveClock < 100 ∧
    ChessEngine.isGameOver repEngine = some ⟨.draw, .threefoldRepetition⟩ :=
  ⟨by decide, by decide,
   (threefold_iff_fen_count repEngine (by decide) (by decide)).mpr (by decide)⟩

/-! ### C6: castling rights are monotonically non-increasing -/

/-- One `applyMove` never re-sets a cleared castling flag. -/
theorem applyMove_rights_le (gs : GameState) (m : Move) :
    ((ChessEngine.applyMove gs m).castlingRights.whiteKingside ≤
      gs.castlingRights.whiteKingside) ∧
    ((ChessEngine.applyMove gs m).castlingRights.whiteQueenside ≤
      gs.castlingRights.whiteQueenside) ∧
    ((ChessEngine.applyMove gs m).castlingRights.blackKingside ≤
      gs.castlingRights.blackKingside) ∧
    ((ChessEngine.applyMove gs m).castlingRights.blackQueenside ≤
      gs.castlingRights.blackQueenside) := by
  simp only [ChessEngine.applyMove]
  split_ifs <;> simp_all [Bool.false_le, le_refl]

/-- One engine `makeMove` call never re-sets a cleared castling flag. -/
theorem makeMove_rights_le (es : ChessEngine.EngineState) (m : Move) :
    (((ChessEngine.makeMove es m).2.gameState.castlingRights.whiteKingside ≤
      es.gameState.castlingRights.whiteKingside) ∧
     ((ChessEngine.makeMove es m).2.gameState.castlingRights.whiteQueenside ≤
      es.gameState.castlingRights.whiteQueenside) ∧
     ((ChessEngine.makeMove es m).2.gameState.castlingRights.blackKingside ≤
      es.gameState.castlingRights.blackKingside) ∧
     ((ChessEngine.makeMove es m).2.gameState.castlingRights.blackQueenside ≤
      es.gameState.castlingRights.blackQueenside)) := by
  by_cases hb : ((MoveGenerator.generateLegalMoves es.gameState).any fun legalMove =>
      decide (legalMove.fromSq = m.fromSq) && decide (legalMove.toSq = m.toSq) &&
        decide (legalMove.promotion = m.promotion)) = true
  · have hmm : (ChessEngine.makeMove es m).2.gameState = ChessEngine.applyMove es.gameState m := by
      simp only [ChessEngine.makeMove]
      rw [if_pos hb]
    rw [hmm]
    exact applyMove_rights_le es.gameState m
  · have hmm : (ChessEngine.makeMove es m).2 = es := by
      simp only [ChessEngine.makeMove]
      rw [if_neg hb]
    rw [hmm]
    exact ⟨le_refl _, le_refl _, le_refl _, le_refl _⟩

/-- C6.  Along every sequence of `makeMove` calls, each of the four
castling-rights flags is monotonically non-increasing (`false ≤ true` in
the Bool order): once cleared, a flag is never re-set. -/
theorem castling_rights_monotone (es : ChessEngine.EngineState) (ms : List Move) :
    (((playMoves es ms).gameState.castlingRights.whiteKingside ≤
      es.gameState.castlingRights.whiteKingside) ∧
     ((playMoves es ms).gameState.castlingRights.whiteQueenside ≤
      es.gameState.castlingRights.whiteQueenside) ∧
     ((playMoves es ms).gameState.castlingRights.blackKingside ≤
      es.gameState.castlingRights.blackKingside) ∧
     ((playMoves es ms).gameState.castlingRights.blackQueenside ≤
      es.gameState.castlingRights.blackQueenside)) := by
  induction ms generalizing es with
  | nil => exact ⟨le_refl _, le_refl _, le_refl _, le_refl _⟩
  | cons m rest ih =>
    have h1 := makeMove_rights_le es m
    have h2 := ih ((ChessEngine.makeMove es m).2)
    exact ⟨le_trans h2.1 h1.1, le_trans h2.2.1 h1.2.1,
      le_trans h2.2.2.1 h1.2.2.1, le_trans h2.2.2.2 h1.2.2.2⟩

/-! ### C7: halfmove clock and the fifty-move rule -/

/-- C7.  On every successful `makeMove`, the new halfmove clock is 0 for a
capture or pawn move and the prior clock plus 1 otherwise; and
`isGameOver` reports the fifty-move draw exactly when the clock has
reached 100 and no checkmate/stalemate applies (some legal move exists). -/
theorem halfmove_clock_and_fifty_move (es : ChessEngine.EngineState) (m : Move) :
    ((ChessEngine.makeMove es m).1 = true →
      (ChessEngine.makeMove es m).2.gameState.halfmoveClock =
        (if m.captured.isSome || decide (m.piece.type = .pawn) then 0
         else es.gameState.halfmoveClock + 1)) ∧
    (ChessEngine.isGameOver es = some ⟨.draw, .fiftyMove⟩ ↔
      (100 ≤ es.gameState.halfmoveClock ∧
        MoveGenerator.generateLegalMoves es.gameState ≠ [])) := by
  constructor
  · intro h
    simp only [ChessEngine.makeMove] at h ⊢
    split_ifs at h with hb
    rw [if_pos hb]
    rfl
  · constructor
    · intro hcon
      by_cases hz : MoveGenerator.generateLegalMoves es.gameState = []
      · rw [isGameOver_no_moves es hz] at hcon
        split_ifs at hcon <;> simp_all
      · by_cases hf : 100 ≤ es.gameState.halfmoveClock
        · exact ⟨hf, hz⟩
        · rw [isGameOver_not_terminal es hz (by omega)] at hcon
          split_ifs at hcon <;> simp_all
    · intro hcon
      exact isGameOver_fifty es hcon.2 hcon.1

/-- Witness for C7 at the two-king engine with the clock already at 100:
the king move a1→a2 succeeds and sets the clock to 101, and `isGameOver`
reports the fifty-move draw. -/
theorem halfmove_clock_and_fifty_move_witness :
    (ChessEngine.makeMove kingsEngineClock100 mKa1a2).1 = true ∧
    (ChessEngine.makeMove kingsEngineClock100 mKa1a2).2.gameState.halfmoveClock = 101 ∧
    ChessEngine.isGameOver kingsEngineClock100 = some ⟨.draw, .fiftyMove⟩ := by
  have h := halfmove_clock_and_fifty_move kingsEngineClock100 mKa1a2
  have ht : (ChessEngine.makeMove kingsEngineClock100 mKa1a2).1 = true := by decide
  exact ⟨ht, (h.1 ht).trans (by decide), h.2.mpr ⟨by decide, by decide⟩⟩

/-! ### C8: the initial position has exactly 20 legal moves -/

/-- C8.  `generateLegalMoves` on the standard initial game state returns
exactly 20 moves: 16 pawn moves and 4 knight moves. -/
theorem initial_position_twenty_legal_moves :
    (MoveGenerator.generateLegalMoves (ChessEngine.createInitialGameState 0)).length = 20 ∧
    ((MoveGenerator.generateLegalMoves (ChessEngine.createInitialGameState 0)).filter
      fun m => decide (m.piece.type = .pawn)).length = 16 ∧
    ((MoveGenerator.generateLegalMoves (ChessEngine.createInitialGameState 0)).filter
      fun m => decide (m.piece.type = .knight)).length = 4 := by
  decide

end Chessy
